import Mathlib

/-!
Verification of the download-queue and resumable-transfer manager of
ComfyUI-Workflow-Models-Downloader.

The repository ships the browser frontend (`js/workflow-models-downloader.js`);
the server-side queue (`download_queue.py`, per the repository's implementation
plan) is not part of the shipped sources, so the queue, transfer engine,
integrity checker and persistence layer are modelled here from the
specification (spec.md §3-§7).  The frontend functions cited by the claims
(`getFilteredModels`, `applyFilter`, `updateDownloadUI`, `checkActiveDownloads`,
`startProgressPolling`, `startBackgroundPolling`, `cancelDownload`,
`loadDownloadsTab`, history management) are embedded directly from the
JavaScript source.
-/

namespace WMD

/-! ## Frontend embedding (from js/workflow-models-downloader.js) -/

/-- One entry of `this.models` as used by the filter logic
(js/workflow-models-downloader.js:3256-3313).  The JavaScript field `exists`
is rendered here as `modelExists` (`exists` is a Lean keyword); `url` is
`none` for a missing/null URL and `some ""` for an empty string, both of
which are falsy in JavaScript. -/
structure ModelEntry where
  modelExists : Bool
  url : Option String
deriving DecidableEq

/-- JavaScript truthiness of the `url` field: `null`/`undefined`/`""` are
falsy, any non-empty string is truthy. -/
def truthyUrl : Option String → Bool
  | none => false
  | some s => s ≠ ""

/-- Predicate of the `"existing"` filter arm: `m => m.exists`
(js/workflow-models-downloader.js:3259). -/
def existingPred (m : ModelEntry) : Bool := m.modelExists

/-- Predicate of the `"ready"` filter arm: `m => !m.exists && m.url`
(js/workflow-models-downloader.js:3261). -/
def readyPred (m : ModelEntry) : Bool := !m.modelExists && truthyUrl m.url

/-- Predicate of the `"unknown"` filter arm: `m => !m.exists && !m.url`
(js/workflow-models-downloader.js:3263). -/
def unknownPred (m : ModelEntry) : Bool := !m.modelExists && !truthyUrl m.url

/-- `getFilteredModels` (js/workflow-models-downloader.js:3256-3267): a
switch on `this.currentFilter`, with the default arm returning `this.models`
unfiltered. -/
def getFilteredModels (currentFilter : String) (models : List ModelEntry) :
    List ModelEntry :=
  if currentFilter = "existing" then models.filter existingPred
  else if currentFilter = "ready" then models.filter readyPred
  else if currentFilter = "unknown" then models.filter unknownPred
  else models

/-- The per-row display classification of `updateDownloadUI`
(js/workflow-models-downloader.js:3443-3491): an if/else chain on
`progress.status` testing `"completed"`, `"error"`, `"cancelled"`,
`"downloading"` in that order, with a generic catch-all that just prints
the status text. -/
inductive DisplayKind where
  | completedK
  | errorK
  | cancelledK
  | downloadingK
  | genericK
deriving DecidableEq

/-- Status branch order of `updateDownloadUI`
(js/workflow-models-downloader.js:3443-3491). -/
def classifyProgressStatus (s : String) : DisplayKind :=
  if s = "completed" then .completedK
  else if s = "error" then .errorK
  else if s = "cancelled" then .cancelledK
  else if s = "downloading" then .downloadingK
  else .genericK

/-- `checkActiveDownloads` treats a progress entry as a live download when
its status is `'downloading'`, `'starting'` or `'queued'`
(js/workflow-models-downloader.js:2001). -/
def isActiveDownloadStatus (s : String) : Bool :=
  s == "downloading" || s == "starting" || s == "queued"

/-- The polling loops count a download as active when its status is
`"downloading"` or `"starting"` (js/workflow-models-downloader.js:3416 and
5291). -/
def isPollingActiveStatus (s : String) : Bool :=
  s == "downloading" || s == "starting"

/-- The status alphabet asserted by the specification (spec.md §3):
`queued`, `active`, `paused`, `completed`, `error`, `cancelled`. -/
def specClaimedStatuses : List String :=
  ["queued", "active", "paused", "completed", "error", "cancelled"]

/-- The status strings the frontend actually distinguishes on the
status/progress interface. -/
def observedStatuses : List String :=
  ["queued", "starting", "downloading", "completed", "error", "cancelled"]

/-- State of the modal's progress poller: `this.downloads` (index to
download id) and `this.progressInterval` (timer handle or `null`). -/
structure PollerState where
  downloads : List (String × String)
  interval : Option Nat
deriving DecidableEq

/-- State of the page-level background poller: `backgroundDownloads`
(download id to last seen status) and `backgroundPollInterval`. -/
structure BackgroundState where
  tracked : List (String × String)
  interval : Option Nat
deriving DecidableEq

/-- `allProgress[downloadId]` lookup used by the polling callbacks. -/
def progressLookup (allProgress : List (String × String)) (dlId : String) :
    Option String :=
  (allProgress.find? (fun p => p.1 == dlId)).map Prod.snd

/-- `startProgressPolling` (js/workflow-models-downloader.js:3402-3430):
`if (this.progressInterval) return;` then installs a fresh interval. -/
def startProgressPolling (ps : PollerState) (fresh : Nat) : PollerState :=
  match ps.interval with
  | some _ => ps
  | none => { ps with interval := some fresh }

/-- `startBackgroundPolling` (js/workflow-models-downloader.js:5279-5316):
`if (backgroundPollInterval) return;` then installs a fresh interval. -/
def startBackgroundPolling (bs : BackgroundState) (fresh : Nat) :
    BackgroundState :=
  match bs.interval with
  | some _ => bs
  | none => { bs with interval := some fresh }

/-- `hasActiveDownloads` of the progress-poll callback
(js/workflow-models-downloader.js:3410-3420): a tracked download counts only
if its id is present in `allProgress` and that entry's status is
`"downloading"` or `"starting"`. -/
def progressHasActive (downloads allProgress : List (String × String)) :
    Bool :=
  downloads.any (fun d =>
    match progressLookup allProgress d.2 with
    | some st => isPollingActiveStatus st
    | none => false)

/-- One tick of the progress-poll interval callback, restricted to its
effect on the timer (js/workflow-models-downloader.js:3405-3429): the
interval is cleared when `!hasActiveDownloads &&
Object.keys(this.downloads).length > 0`. -/
def progressTick (ps : PollerState) (allProgress : List (String × String)) :
    PollerState :=
  match ps.interval with
  | none => ps
  | some _ =>
    if !progressHasActive ps.downloads allProgress && !ps.downloads.isEmpty
    then { ps with interval := none }
    else ps

/-- `hasActiveDownloads` of the background-poll callback
(js/workflow-models-downloader.js:5287-5299): computed over all entries of
`allProgress`, not only the tracked ones. -/
def backgroundHasActive (allProgress : List (String × String)) : Bool :=
  allProgress.any (fun p => isPollingActiveStatus p.2)

/-- The loop body of the background-poll callback over `allProgress`
(js/workflow-models-downloader.js:5290-5299): active entries are (re)recorded
in `backgroundDownloads`; a completed entry that was tracked is removed
(after notifying). -/
def backgroundUpdateTracked (tracked allProgress : List (String × String)) :
    List (String × String) :=
  allProgress.foldl (fun acc p =>
    if isPollingActiveStatus p.2 then
      (p.1, p.2) :: acc.filter (fun q => !(q.1 == p.1))
    else if p.2 == "completed" && (acc.find? (fun q => q.1 == p.1)).isSome then
      acc.filter (fun q => !(q.1 == p.1))
    else acc) tracked

/-- One tick of the background-poll interval callback
(js/workflow-models-downloader.js:5282-5315): when no progress entry is
downloading/starting the interval is cleared and `backgroundDownloads` is
reset to empty. -/
def backgroundTick (bs : BackgroundState)
    (allProgress : List (String × String)) : BackgroundState :=
  match bs.interval with
  | none => bs
  | some _ =>
    if backgroundHasActive allProgress then
      { bs with tracked := backgroundUpdateTracked bs.tracked allProgress }
    else
      { tracked := [], interval := none }

/-! ## Core download manager

Modelled from the spec: the server-side queue/transfer code
(`download_queue.py`, `reliability.py`, `security.py` in the repository's
implementation plan) is not among the shipped sources, so the Task Record
data model (§3), Queue Store (§4.1), Scheduler (§4.2), Transfer Engine
(§4.3) and Integrity Checker (§4.4) are translated from the
specification's words. -/

/-- Modelled from the spec: task `status`, one of `queued`, `active`,
`paused`, `completed`, `error`, `cancelled` (spec.md §3). -/
inductive TaskStatus where
  | queued
  | active
  | paused
  | completed
  | error
  | cancelled
deriving DecidableEq

/-- Modelled from the spec: terminal states are `completed` and `cancelled`
(spec.md §4.2). -/
def TaskStatus.isTerminal : TaskStatus → Bool
  | .completed => true
  | .cancelled => true
  | _ => false

/-- Modelled from the spec: the Task Record (spec.md §3).  A destination is
a path rendered as its component list. -/
structure TaskRecord where
  id : Nat
  source : String
  destination : List String
  status : TaskStatus
  priority : Int
  bytesTotal : Nat
  bytesTransferred : Nat
  resumeOffset : Nat
  expectedHash : Option Nat
  attemptCount : Nat
  errorDetail : Option String
  createdAt : Nat
deriving DecidableEq

/-- Modelled from the spec: a History Entry, written once a task reaches a
final outcome, keyed by content hash and by (filename, destination)
(spec.md §3, §7). -/
structure HistoryEntry where
  filename : String
  destination : List String
  contentHash : Nat
  finalStatus : TaskStatus
deriving DecidableEq

/-- Modelled from the spec: an enqueue request
(`enqueue(source, destination, priority?, expected_hash?)`, spec.md §6). -/
structure Request where
  source : String
  destination : List String
  priority : Int
  sizeEstimate : Nat
  expectedHash : Option Nat
  createdAt : Nat
deriving DecidableEq

/-- Modelled from the spec: the shared state — Queue Store of task records,
concurrency limit, the `.part` temporary files, the atomically published
files, and the history store (spec.md §2, §4.1, §5). -/
structure SysState where
  tasks : List TaskRecord
  limit : Nat
  partFiles : List (List String × List Nat)
  published : List (List String × List Nat)
  history : List HistoryEntry
  nextId : Nat
deriving DecidableEq

/-- File-system lookup by destination path. -/
def lookupFile (fs : List (List String × List Nat)) (d : List String) :
    Option (List Nat) :=
  (fs.find? (fun p => p.1 == d)).map Prod.snd

/-- Delete the file stored at destination `d`. -/
def removeFile (fs : List (List String × List Nat)) (d : List String) :
    List (List String × List Nat) :=
  fs.filter (fun p => !(p.1 == d))

/-- Write `content` at destination `d`, replacing any previous file. -/
def setFile (fs : List (List String × List Nat)) (d : List String)
    (content : List Nat) : List (List String × List Nat) :=
  (d, content) :: removeFile fs d

/-- Queue Store lookup by task id (first record with that id). -/
def findTask (s : SysState) (i : Nat) : Option TaskRecord :=
  s.tasks.find? (fun t => t.id == i)

/-- Atomic update of the one record keyed by `i` (spec.md §4.1: atomic
compare-and-swap update of the record with that id). -/
def updateFirst (i : Nat) (f : TaskRecord → TaskRecord) :
    List TaskRecord → List TaskRecord
  | [] => []
  | t :: ts => if t.id == i then f t :: ts else t :: updateFirst i f ts

/-- Number of records currently in `active` status. -/
def countActive (l : List TaskRecord) : Nat :=
  l.countP (fun t => t.status == TaskStatus.active)

/-- Number of tasks currently holding `active` status. -/
def activeCount (s : SysState) : Nat := countActive s.tasks

/-- Modelled from the spec: destination validation — the path must stay
within the managed storage root, so it is non-empty and contains no empty
or `..` component (spec.md §3, §6 `InvalidDestination`). -/
def validDest (d : List String) : Bool :=
  !d.isEmpty && !d.contains "" && !d.contains ".."

/-- Modelled from the spec: submission errors (spec.md §6, §7). -/
inductive SubmitError where
  | DuplicateDestination
  | InvalidDestination
deriving DecidableEq

/-- The fresh record a submission creates (spec.md §3 lifecycle: created on
submission with status `queued`). -/
def newTask (s : SysState) (r : Request) : TaskRecord :=
  { id := s.nextId
    source := r.source
    destination := r.destination
    status := .queued
    priority := r.priority
    bytesTotal := r.sizeEstimate
    bytesTransferred := 0
    resumeOffset := 0
    expectedHash := r.expectedHash
    attemptCount := 0
    errorDetail := none
    createdAt := r.createdAt }

/-- Does some non-terminal task already target destination `d`?
(spec.md §3: `destination` is unique among non-terminal tasks). -/
def hasNonTerminalForDest (s : SysState) (d : List String) : Bool :=
  s.tasks.any (fun t => t.destination == d && !t.status.isTerminal)

/-- Modelled from the spec: `submit(request) -> id` with `InvalidDestination`
and `DuplicateDestination` rejections (spec.md §4.2, §6); on rejection the
store is untouched. -/
def submit (s : SysState) (r : Request) :
    SysState × Except SubmitError Nat :=
  if validDest r.destination = false then
    (s, Except.error SubmitError.InvalidDestination)
  else if hasNonTerminalForDest s r.destination then
    (s, Except.error SubmitError.DuplicateDestination)
  else
    ({ s with tasks := s.tasks ++ [newTask s r], nextId := s.nextId + 1 },
     Except.ok s.nextId)

/-- Modelled from the spec: the content hash the Integrity Checker computes
over a byte sequence (spec.md §4.4); a simple injective-enough rolling hash
stands in for SHA-256. -/
def contentHash (bs : List Nat) : Nat :=
  bs.foldl (fun a b => a * 1000003 + b + 1) 7

/-- Modelled from the spec: the bounded retry count (spec.md §4.3). -/
def maxAttempts : Nat := 3

/-- Final filename component of a destination path. -/
def fileNameOf (d : List String) : String := d.getLastD ""

/-- Modelled from the spec: `cancel(id)` — idempotent, returns the current
status; on a non-terminal task it transitions the record to `cancelled` and
deletes any partial artifact; on a task already `cancelled` or `completed`
it is a no-op (spec.md §4.2, §6). -/
def cancelCall (s : SysState) (i : Nat) : SysState × Option TaskStatus :=
  match findTask s i with
  | none => (s, none)
  | some t =>
    if t.status.isTerminal then (s, some t.status)
    else
      ({ s with
          tasks := updateFirst i (fun u => { u with status := .cancelled })
            s.tasks
          partFiles := removeFile s.partFiles t.destination },
       some TaskStatus.cancelled)

/-- Modelled from the spec: the offset at which the Transfer Engine begins
a run — with an existing `.part` file and ranged resume supported it issues
a range request from the recorded `resume_offset`, otherwise it restarts
from 0 (spec.md §4.3). -/
def resumeStart (t : TaskRecord) (pf : Option (List Nat))
    (rangeSupported : Bool) : Nat :=
  match pf with
  | some _ => if rangeSupported then t.resumeOffset else 0
  | none => 0

/-- Modelled from the spec: the operations that mutate the shared state —
submission, scheduler admission, the Transfer Engine's chunk/checkpoint
loop, pause/resume/cancel, verification and atomic publish, transport
failure with bounded retry, runtime limit change, process restart, and
explicit history pruning (spec.md §4, §6). -/
inductive Op where
  | submitOp (r : Request)
  | admitTask (i : Nat) (diskOk : Bool) (rangeSupported : Bool)
  | chunk (i : Nat) (bs : List Nat)
  | checkpoint (i : Nat)
  | pauseOp (i : Nat)
  | resumeOp (i : Nat)
  | finalize (i : Nat)
  | transportFail (i : Nat)
  | retryOp (i : Nat)
  | cancelOp (i : Nat)
  | setLimit (n : Nat)
  | restart
  | clearHistoryOp
  | deleteHistoryOp (f : String)
deriving DecidableEq

/-- Modelled from the spec: one step of the system.  Preconditions that do
not hold make the operation a no-op. -/
def applyOp (s : SysState) (op : Op) : SysState :=
  match op with
  | .submitOp r => (submit s r).1
  | .admitTask i diskOk rangeSupported =>
    match findTask s i with
    | none => s
    | some t =>
      if t.status = .queued ∧ diskOk = true ∧ activeCount s < s.limit then
        let off := resumeStart t (lookupFile s.partFiles t.destination)
          rangeSupported
        { s with
            tasks := updateFirst i (fun u =>
              { u with
                  status := .active
                  bytesTransferred := off
                  attemptCount := u.attemptCount + 1 }) s.tasks
            partFiles := setFile s.partFiles t.destination
              (((lookupFile s.partFiles t.destination).getD []).take off) }
      else s
  | .chunk i bs =>
    match findTask s i with
    | none => s
    | some t =>
      if t.status = .active then
        { s with
            tasks := updateFirst i (fun u =>
              { u with bytesTransferred := u.bytesTransferred + bs.length })
              s.tasks
            partFiles := setFile s.partFiles t.destination
              (((lookupFile s.partFiles t.destination).getD []) ++ bs) }
      else s
  | .checkpoint i =>
    match findTask s i with
    | none => s
    | some t =>
      if t.status = .active then
        { s with
            tasks := updateFirst i (fun u =>
              { u with resumeOffset := u.bytesTransferred }) s.tasks }
      else s
  | .pauseOp i =>
    match findTask s i with
    | none => s
    | some t =>
      if t.status = .active then
        { s with
            tasks := updateFirst i (fun u => { u with status := .paused })
              s.tasks }
      else s
  | .resumeOp i =>
    match findTask s i with
    | none => s
    | some t =>
      if t.status = .paused then
        { s with
            tasks := updateFirst i (fun u => { u with status := .queued })
              s.tasks }
      else s
  | .finalize i =>
    match findTask s i with
    | none => s
    | some t =>
      if t.status = .active ∧ t.bytesTransferred = t.bytesTotal then
        let pf := (lookupFile s.partFiles t.destination).getD []
        let ch := contentHash pf
        let hashOk := match t.expectedHash with
          | some h => h == ch
          | none => true
        if hashOk then
          { s with
              tasks := updateFirst i (fun u => { u with status := .completed })
                s.tasks
              partFiles := removeFile s.partFiles t.destination
              published := setFile s.published t.destination pf
              history := s.history ++
                [{ filename := fileNameOf t.destination
                   destination := t.destination
                   contentHash := ch
                   finalStatus := .completed }] }
        else
          { s with
              tasks := updateFirst i (fun u =>
                { u with
                    status := .error
                    errorDetail := some "checksum mismatch" }) s.tasks
              partFiles := removeFile s.partFiles t.destination
              history := s.history ++
                [{ filename := fileNameOf t.destination
                   destination := t.destination
                   contentHash := ch
                   finalStatus := .error }] }
      else s
  | .transportFail i =>
    match findTask s i with
    | none => s
    | some t =>
      if t.status = .active then
        if t.attemptCount < maxAttempts then
          { s with
              tasks := updateFirst i (fun u => { u with status := .queued })
                s.tasks }
        else
          { s with
              tasks := updateFirst i (fun u =>
                { u with
                    status := .error
                    errorDetail := some "transport error" }) s.tasks
              history := s.history ++
                [{ filename := fileNameOf t.destination
                   destination := t.destination
                   contentHash :=
                     contentHash ((lookupFile s.partFiles t.destination).getD [])
                   finalStatus := .error }] }
      else s
  | .retryOp i =>
    match findTask s i with
    | none => s
    | some t =>
      if t.status = .error then
        { s with
            tasks := updateFirst i (fun u => { u with status := .queued })
              s.tasks }
      else s
  | .cancelOp i => (cancelCall s i).1
  | .setLimit n => if 0 < n then { s with limit := n } else s
  | .restart =>
    { s with
        tasks := s.tasks.map (fun t =>
          if t.status = .active then { t with status := .queued } else t) }
  | .clearHistoryOp => { s with history := [] }
  | .deleteHistoryOp f =>
    { s with history := s.history.filter (fun h => !(h.filename == f)) }

/-- Modelled from the spec: an initial, empty manager state with the given
concurrency limit. -/
def initState (limit : Nat) : SysState :=
  { tasks := []
    limit := limit
    partFiles := []
    published := []
    history := []
    nextId := 0 }

/-- States reachable from `s0` by running operations. -/
inductive Reachable (s0 : SysState) : SysState → Prop where
  | refl : Reachable s0 s0
  | step {s : SysState} (op : Op) : Reachable s0 s → Reachable s0 (applyOp s op)

/-! ### Concrete instances used to instantiate the theorems -/

/-- A sample in-flight task. -/
def sampleTask : TaskRecord :=
  { id := 0
    source := "https://host/a.bin"
    destination := ["models", "a.bin"]
    status := .active
    priority := 0
    bytesTotal := 10
    bytesTransferred := 6
    resumeOffset := 4
    expectedHash := some 99
    attemptCount := 1
    errorDetail := none
    createdAt := 0 }

/-- A sample manager state holding `sampleTask`, its partial file and one
history entry. -/
def sampleState : SysState :=
  { tasks := [sampleTask]
    limit := 2
    partFiles := [(["models", "a.bin"], [1, 2, 3, 4])]
    published := []
    history := [{ filename := "old.bin"
                  destination := ["models", "old.bin"]
                  contentHash := 5
                  finalStatus := .completed }]
    nextId := 1 }

/-- Sample state whose task has fully transferred (for finalization). -/
def fullState : SysState :=
  { sampleState with tasks := [{ sampleTask with bytesTransferred := 10 }] }

/-- Sample state whose task is already completed (for cancel). -/
def doneState : SysState :=
  { sampleState with tasks := [{ sampleTask with status := .completed }] }

/-- First submission of the concurrency-limit trace. -/
def reqA : Request :=
  { source := "https://host/a.bin"
    destination := ["m", "a"]
    priority := 0
    sizeEstimate := 5
    expectedHash := none
    createdAt := 0 }

/-- Second submission of the concurrency-limit trace. -/
def reqB : Request :=
  { source := "https://host/b.bin"
    destination := ["m", "b"]
    priority := 0
    sizeEstimate := 5
    expectedHash := none
    createdAt := 1 }

/-- Duplicate-destination submission against `sampleState`. -/
def dupReq : Request :=
  { source := "https://mirror/a.bin"
    destination := ["models", "a.bin"]
    priority := 0
    sizeEstimate := 10
    expectedHash := none
    createdAt := 2 }

/-- A reachable state in which two transfers were admitted under limit 2 and
the limit was then lowered to 1 at runtime: the spec applies limit changes
only to future admissions, so both transfers stay `active`. -/
def lateLimitState : SysState :=
  applyOp (applyOp (applyOp (applyOp (applyOp (initState 2)
    (.submitOp reqA)) (.submitOp reqB))
    (.admitTask 0 true true)) (.admitTask 1 true true)) (.setLimit 1)

/-! ## Helper lemmas -/

theorem find_cons_pos {α : Type} (p : α → Bool) {a : α} (l : List α)
    (h : p a = true) : (a :: l).find? p = some a :=
  List.find?_cons_of_pos _ h

theorem find_cons_neg {α : Type} (p : α → Bool) {a : α} (l : List α)
    (h : p a = false) : (a :: l).find? p = l.find? p :=
  List.find?_cons_of_neg _ (by simp [h])

theorem find_updateFirst_self (l : List TaskRecord) (i : Nat)
    (f : TaskRecord → TaskRecord) (hf : ∀ u, (f u).id = u.id) :
    (updateFirst i f l).find? (fun t => t.id == i) =
      (l.find? (fun t => t.id == i)).map f := by
  induction l with
  | nil => rfl
  | cons t ts ih =>
    cases hb : (t.id == i) with
    | false =>
      simp only [updateFirst, hb, Bool.false_eq_true, if_false]
      rw [find_cons_neg (fun u : TaskRecord => u.id == i) _ hb, find_cons_neg (fun u : TaskRecord => u.id == i) _ hb]
      exact ih
    | true =>
      have hfb : ((f t).id == i) = true := by rw [hf]; exact hb
      simp only [updateFirst, hb, if_true]
      rw [find_cons_pos (fun u : TaskRecord => u.id == i) _ hfb, find_cons_pos (fun u : TaskRecord => u.id == i) _ hb]
      rfl

theorem find_updateFirst_other (l : List TaskRecord) (i j : Nat)
    (f : TaskRecord → TaskRecord) (hf : ∀ u, (f u).id = u.id)
    (hij : i ≠ j) :
    (updateFirst j f l).find? (fun t => t.id == i) =
      l.find? (fun t => t.id == i) := by
  induction l with
  | nil => rfl
  | cons t ts ih =>
    cases hb : (t.id == j) with
    | false =>
      simp only [updateFirst, hb, Bool.false_eq_true, if_false]
      cases hc : (t.id == i) with
      | false =>
        rw [find_cons_neg (fun u : TaskRecord => u.id == i) _ hc, find_cons_neg (fun u : TaskRecord => u.id == i) _ hc]
        exact ih
      | true =>
        rw [find_cons_pos (fun u : TaskRecord => u.id == i) _ hc, find_cons_pos (fun u : TaskRecord => u.id == i) _ hc]
    | true =>
      have htj : t.id = j := by simpa using hb
      have hc : (t.id == i) = false := by
        simp [htj]
        omega
      have hfc : ((f t).id == i) = false := by rw [hf]; exact hc
      simp only [updateFirst, hb, if_true]
      rw [find_cons_neg (fun u : TaskRecord => u.id == i) _ hfc, find_cons_neg (fun u : TaskRecord => u.id == i) _ hc]

theorem find_map_id (l : List TaskRecord) (i : Nat)
    (g : TaskRecord → TaskRecord) (hg : ∀ u, (g u).id = u.id) :
    (l.map g).find? (fun t => t.id == i) =
      (l.find? (fun t => t.id == i)).map g := by
  induction l with
  | nil => rfl
  | cons t ts ih =>
    cases hb : (t.id == i) with
    | false =>
      have hgb : ((g t).id == i) = false := by rw [hg]; exact hb
      rw [List.map_cons, find_cons_neg (fun u : TaskRecord => u.id == i) _ hgb,
        find_cons_neg (fun u : TaskRecord => u.id == i) _ hb]
      exact ih
    | true =>
      have hgb : ((g t).id == i) = true := by rw [hg]; exact hb
      rw [List.map_cons, find_cons_pos (fun u : TaskRecord => u.id == i) _ hgb,
        find_cons_pos (fun u : TaskRecord => u.id == i) _ hb]
      rfl

theorem find_append_some (l₁ l₂ : List TaskRecord) (p : TaskRecord → Bool)
    (t : TaskRecord) (h : l₁.find? p = some t) :
    (l₁ ++ l₂).find? p = some t := by
  induction l₁ with
  | nil => simp at h
  | cons a as ih =>
    cases hb : (p a) with
    | false =>
      rw [find_cons_neg p _ hb] at h
      rw [List.cons_append, find_cons_neg p _ hb]
      exact ih h
    | true =>
      rw [find_cons_pos p _ hb] at h
      rw [List.cons_append, find_cons_pos p _ hb]
      exact h

theorem countActive_cons (t : TaskRecord) (ts : List TaskRecord) :
    countActive (t :: ts) =
      countActive ts + (if t.status == TaskStatus.active then 1 else 0) := by
  simp [countActive, List.countP_cons]

theorem countActive_updateFirst_le (l : List TaskRecord) (i : Nat)
    (f : TaskRecord → TaskRecord)
    (hf : ∀ u, (f u).status = TaskStatus.active →
      u.status = TaskStatus.active) :
    countActive (updateFirst i f l) ≤ countActive l := by
  induction l with
  | nil => exact Nat.le_refl _
  | cons t ts ih =>
    cases hb : (t.id == i) with
    | false =>
      simp only [updateFirst, hb, Bool.false_eq_true, if_false]
      rw [countActive_cons, countActive_cons]
      exact Nat.add_le_add ih (Nat.le_refl _)
    | true =>
      simp only [updateFirst, hb, if_true]
      rw [countActive_cons, countActive_cons]
      refine Nat.add_le_add (Nat.le_refl _) ?_
      cases hpf : ((f t).status == TaskStatus.active) with
      | false => simp [hpf]
      | true => simp [hpf, hf t (by simpa using hpf)]

theorem countActive_updateFirst_succ (l : List TaskRecord) (i : Nat)
    (f : TaskRecord → TaskRecord) :
    countActive (updateFirst i f l) ≤ countActive l + 1 := by
  induction l with
  | nil => simp [updateFirst, countActive]
  | cons t ts ih =>
    cases hb : (t.id == i) with
    | false =>
      simp only [updateFirst, hb, Bool.false_eq_true, if_false]
      rw [countActive_cons, countActive_cons]
      omega
    | true =>
      simp only [updateFirst, hb, if_true]
      rw [countActive_cons, countActive_cons]
      have h1 : (if (f t).status == TaskStatus.active then 1 else 0) ≤ 1 := by
        split <;> simp
      omega

theorem countActive_updateFirst_eq (l : List TaskRecord) (i : Nat)
    (f : TaskRecord → TaskRecord) (hf : ∀ u, (f u).status = u.status) :
    countActive (updateFirst i f l) = countActive l := by
  induction l with
  | nil => rfl
  | cons t ts ih =>
    cases hb : (t.id == i) with
    | false =>
      simp only [updateFirst, hb, Bool.false_eq_true, if_false]
      rw [countActive_cons, countActive_cons, ih]
    | true =>
      simp only [updateFirst, hb, if_true]
      rw [countActive_cons, countActive_cons, hf]

theorem countActive_append (l₁ l₂ : List TaskRecord) :
    countActive (l₁ ++ l₂) = countActive l₁ + countActive l₂ := by
  simp [countActive, List.countP_append]

theorem countActive_restart (l : List TaskRecord) :
    countActive (l.map (fun t =>
      if t.status = TaskStatus.active then { t with status := .queued }
      else t)) = 0 := by
  induction l with
  | nil => rfl
  | cons t ts ih =>
    rw [List.map_cons, countActive_cons, ih]
    by_cases ht : t.status = TaskStatus.active
    · simp [ht]
    · simp [ht]

theorem terminal_cases (st : TaskStatus) (h : st.isTerminal = true) :
    st = .completed ∨ st = .cancelled := by
  cases st <;> simp [TaskStatus.isTerminal] at h ⊢

theorem find_filter_ne (fs : List (List String × List Nat))
    (d : List String) :
    ((fs.filter (fun p => !(p.1 == d))).find? (fun p => p.1 == d)) = none := by
  induction fs with
  | nil => rfl
  | cons p ps ih =>
    cases hb : (p.1 == d) with
    | false =>
      rw [List.filter_cons]
      simp only [hb, Bool.not_false, if_true]
      rw [find_cons_neg (fun q : List String × List Nat => q.1 == d) _ hb]
      exact ih
    | true =>
      rw [List.filter_cons]
      simp only [hb, Bool.not_true, Bool.false_eq_true, if_false]
      exact ih

theorem lookupFile_removeFile_self (fs : List (List String × List Nat))
    (d : List String) : lookupFile (removeFile fs d) d = none := by
  simp [lookupFile, removeFile, find_filter_ne]

theorem lookupFile_setFile_self (fs : List (List String × List Nat))
    (d : List String) (c : List Nat) :
    lookupFile (setFile fs d c) d = some c := by
  simp [lookupFile, setFile, List.find?_cons_of_pos]

theorem getFilteredModels_existing (ms : List ModelEntry) :
    getFilteredModels "existing" ms = ms.filter existingPred := rfl

theorem getFilteredModels_ready (ms : List ModelEntry) :
    getFilteredModels "ready" ms = ms.filter readyPred := rfl

theorem getFilteredModels_unknown (ms : List ModelEntry) :
    getFilteredModels "unknown" ms = ms.filter unknownPred := rfl

theorem getFilteredModels_all (ms : List ModelEntry) :
    getFilteredModels "all" ms = ms := rfl

theorem filter_lengths_sum (ms : List ModelEntry) :
    ((ms.filter existingPred).length + (ms.filter readyPred).length)
      + (ms.filter unknownPred).length = ms.length := by
  induction ms with
  | nil => rfl
  | cons m rest ih =>
    cases he : m.modelExists <;> cases hu : truthyUrl m.url <;>
      simp [List.filter_cons, existingPred, readyPred, unknownPred, he, hu] <;>
      omega

/-- C9: the three non-default filter predicates of `getFilteredModels` —
existing, ready (missing with URL), unknown (missing without URL) — are
mutually exclusive and jointly exhaustive, so the three filtered lists
partition the model list and their lengths sum to the total, while the
default filter returns the full list. -/
theorem getFilteredModels_partition (models : List ModelEntry) :
    ((getFilteredModels "existing" models).length
        + (getFilteredModels "ready" models).length)
      + (getFilteredModels "unknown" models).length = models.length
    ∧ getFilteredModels "all" models = models
    ∧ ∀ m : ModelEntry,
        (existingPred m = true ∨ readyPred m = true ∨ unknownPred m = true)
        ∧ ¬(existingPred m = true ∧ readyPred m = true)
        ∧ ¬(existingPred m = true ∧ unknownPred m = true)
        ∧ ¬(readyPred m = true ∧ unknownPred m = true) := by
  refine ⟨?_, getFilteredModels_all models, ?_⟩
  · rw [getFilteredModels_existing, getFilteredModels_ready,
      getFilteredModels_unknown]
    exact filter_lengths_sum models
  · intro m
    cases he : m.modelExists <;> cases hu : truthyUrl m.url <;>
      simp [existingPred, readyPred, unknownPred, he, hu]

/-- Witness for `getFilteredModels_partition` on a three-model list with
one model of each kind. -/
theorem getFilteredModels_partition_witness :
    ((getFilteredModels "existing"
        [⟨true, none⟩, ⟨false, some "https://host/x"⟩, ⟨false, none⟩]).length
      + (getFilteredModels "ready"
        [⟨true, none⟩, ⟨false, some "https://host/x"⟩, ⟨false, none⟩]).length)
      + (getFilteredModels "unknown"
        [⟨true, none⟩, ⟨false, some "https://host/x"⟩, ⟨false, none⟩]).length
    = ([⟨true, none⟩, ⟨false, some "https://host/x"⟩,
        ⟨false, none⟩] : List ModelEntry).length :=
  (getFilteredModels_partition
    [⟨true, none⟩, ⟨false, some "https://host/x"⟩, ⟨false, none⟩]).1

/-- C5 (counterexample): the frontend's status/progress interface observes
and handles statuses `"downloading"` and `"starting"` — treated as live
downloads by `checkActiveDownloads` and rendered with a progress bar by
`updateDownloadUI` — neither of which is in the claimed alphabet
{queued, active, paused, completed, error, cancelled}; conversely the code
gives `"active"` and `"paused"` no recognition beyond the generic
catch-all display. -/
theorem status_alphabet_counterexample :
    isActiveDownloadStatus "downloading" = true
    ∧ classifyProgressStatus "downloading" = DisplayKind.downloadingK
    ∧ specClaimedStatuses.contains "downloading" = false
    ∧ isActiveDownloadStatus "starting" = true
    ∧ specClaimedStatuses.contains "starting" = false
    ∧ isActiveDownloadStatus "active" = false
    ∧ classifyProgressStatus "active" = DisplayKind.genericK
    ∧ classifyProgressStatus "paused" = DisplayKind.genericK := by
  decide

/-- C5 (amended): the statuses the frontend distinguishes on the
status/progress interface are `queued`, `starting`, `downloading`,
`completed`, `error`, `cancelled`: `checkActiveDownloads` treats exactly
`downloading`/`starting`/`queued` as a live download, every specially
rendered status is in the six-element observed alphabet, and no live
status is ever rendered as one of the end states
completed/error/cancelled. -/
theorem observed_status_vocabulary (s : String) :
    (isActiveDownloadStatus s = true ↔
      (s = "downloading" ∨ s = "starting" ∨ s = "queued"))
    ∧ (isActiveDownloadStatus s = true → observedStatuses.contains s = true)
    ∧ (classifyProgressStatus s ≠ DisplayKind.genericK →
        observedStatuses.contains s = true)
    ∧ (isActiveDownloadStatus s = true →
        classifyProgressStatus s ≠ DisplayKind.completedK
        ∧ classifyProgressStatus s ≠ DisplayKind.errorK
        ∧ classifyProgressStatus s ≠ DisplayKind.cancelledK) := by
  have hiff : isActiveDownloadStatus s = true ↔
      (s = "downloading" ∨ s = "starting" ∨ s = "queued") := by
    simp [isActiveDownloadStatus, or_assoc]
  refine ⟨hiff, ?_, ?_, ?_⟩
  · intro h
    rcases hiff.mp h with rfl | rfl | rfl <;> decide
  · intro h
    by_cases h1 : s = "completed"
    · subst h1; decide
    · by_cases h2 : s = "error"
      · subst h2; decide
      · by_cases h3 : s = "cancelled"
        · subst h3; decide
        · by_cases h4 : s = "downloading"
          · subst h4; decide
          · exact absurd (by simp [classifyProgressStatus, h1, h2, h3, h4]) h
  · intro h
    rcases hiff.mp h with rfl | rfl | rfl <;>
      exact ⟨by decide, by decide, by decide⟩

/-- Witness for `observed_status_vocabulary` at `s = "downloading"`. -/
theorem observed_status_vocabulary_witness :
    isActiveDownloadStatus "downloading" = true
    ∧ observedStatuses.contains "downloading" = true :=
  ⟨by decide, (observed_status_vocabulary "downloading").2.1 (by decide)⟩

/-- C10 (counterexample): with the progress interval running but
`this.downloads` empty — reachable because `show()`
(js/workflow-models-downloader.js:1933-1951) resets `this.downloads` to `{}`
while `close()` (lines 1968-1976) deliberately leaves `progressInterval`
running — no tracked download reports `downloading`/`starting`, yet the
tick does not clear the interval, because the clear condition also requires
`Object.keys(this.downloads).length > 0`. -/
theorem polling_clear_counterexample :
    progressHasActive [] [("d1", "downloading")] = false
    ∧ (progressTick { downloads := [], interval := some 1 }
        [("d1", "downloading")]).interval = some 1 := by
  decide

/-- C10 (amended): both polling starters are idempotent (a set interval is
left unchanged); the progress-poll tick clears its interval exactly when
the tracked set is non-empty and no tracked download reports
`downloading`/`starting`; the background tick clears its interval exactly
when no progress entry at all reports `downloading`/`starting`. -/
theorem polling_loop_invariants (ps : PollerState) (bs : BackgroundState)
    (allProgress : List (String × String)) (fresh k : Nat) :
    (ps.interval = some k → startProgressPolling ps fresh = ps)
    ∧ (bs.interval = some k → startBackgroundPolling bs fresh = bs)
    ∧ ((progressTick ps allProgress).interval = none ↔
        (ps.interval = none ∨
          (progressHasActive ps.downloads allProgress = false
            ∧ ps.downloads ≠ [])))
    ∧ ((backgroundTick bs allProgress).interval = none ↔
        (bs.interval = none ∨ backgroundHasActive allProgress = false)) := by
  refine ⟨?_, ?_, ?_, ?_⟩
  · intro h; simp [startProgressPolling, h]
  · intro h; simp [startBackgroundPolling, h]
  · cases hi : ps.interval with
    | none => simp [progressTick, hi]
    | some j =>
      cases hd : ps.downloads with
      | nil => simp [progressTick, hi, hd]
      | cons x xs =>
        cases hA : progressHasActive (x :: xs) allProgress with
        | false => simp [progressTick, hi, hd, hA]
        | true => simp [progressTick, hi, hd, hA]
  · cases hi : bs.interval with
    | none => simp [backgroundTick, hi]
    | some j =>
      cases hA : backgroundHasActive allProgress with
      | false => simp [backgroundTick, hi, hA]
      | true => simp [backgroundTick, hi, hA]

/-- Witness for `polling_loop_invariants`: a running progress interval is
left unchanged by `startProgressPolling`. -/
theorem polling_loop_invariants_witness :
    startProgressPolling { downloads := [], interval := some 5 } 9 =
      { downloads := [], interval := some 5 } :=
  (polling_loop_invariants { downloads := [], interval := some 5 }
    { tracked := [], interval := some 5 } [] 9 5).1 rfl

/-- C1: on process restart every task found in `active` is reset to
`queued` with its `resume_offset`, destination, progress counter and
partial file preserved, and — with the partial file intact and ranged
resume supported — the Transfer Engine's next run on it starts at the
checkpointed `resume_offset`, not at byte zero. -/
theorem restart_resumes_from_checkpoint (s : SysState) (i : Nat)
    (t : TaskRecord) (h1 : findTask s i = some t)
    (h2 : t.status = TaskStatus.active) :
    ∃ t', findTask (applyOp s .restart) i = some t'
      ∧ t'.status = TaskStatus.queued
      ∧ t'.resumeOffset = t.resumeOffset
      ∧ t'.destination = t.destination
      ∧ t'.bytesTransferred = t.bytesTransferred
      ∧ (applyOp s .restart).partFiles = s.partFiles
      ∧ ∀ pf, lookupFile s.partFiles t.destination = some pf →
          resumeStart t' (some pf) true = t.resumeOffset := by
  have hg : ∀ u : TaskRecord,
      ((if u.status = TaskStatus.active then
        { u with status := TaskStatus.queued } else u) : TaskRecord).id
        = u.id := by
    intro u
    by_cases h : u.status = TaskStatus.active <;> simp [h]
  simp only [findTask] at h1
  refine ⟨{ t with status := TaskStatus.queued }, ?_, rfl, rfl, rfl, rfl,
    rfl, ?_⟩
  · simp only [applyOp, findTask]
    rw [find_map_id _ _ _ hg, h1, Option.map_some']
    rw [if_pos h2]
  · intro pf _
    simp [resumeStart]

/-- Witness for `restart_resumes_from_checkpoint` at `sampleState`. -/
theorem restart_resumes_witness :
    ∃ t', findTask (applyOp sampleState .restart) 0 = some t'
      ∧ t'.status = TaskStatus.queued
      ∧ t'.resumeOffset = sampleTask.resumeOffset
      ∧ t'.destination = sampleTask.destination
      ∧ t'.bytesTransferred = sampleTask.bytesTransferred
      ∧ (applyOp sampleState .restart).partFiles = sampleState.partFiles
      ∧ ∀ pf, lookupFile sampleState.partFiles sampleTask.destination
            = some pf →
          resumeStart t' (some pf) true = sampleTask.resumeOffset :=
  restart_resumes_from_checkpoint sampleState 0 sampleTask (by rfl) (by rfl)

/-- C2: submitting a request whose `destination` is already targeted by a
non-terminal task is rejected with `DuplicateDestination`, and the state —
in particular the task list — is left unchanged, so no second task for
that destination is created. -/
theorem duplicate_destination_rejected (s : SysState) (r : Request)
    (t : TaskRecord) (hmem : t ∈ s.tasks)
    (hdest : t.destination = r.destination)
    (hnt : t.status.isTerminal = false)
    (hvalid : validDest r.destination = true) :
    (submit s r).2 = Except.error SubmitError.DuplicateDestination
    ∧ (submit s r).1 = s := by
  have hdup : hasNonTerminalForDest s r.destination = true := by
    simp only [hasNonTerminalForDest, List.any_eq_true]
    exact ⟨t, hmem, by simp [hdest, hnt]⟩
  constructor <;> simp [submit, hvalid, hdup]

/-- Witness for `duplicate_destination_rejected`: `dupReq` targets
`sampleTask`'s destination while `sampleTask` is active. -/
theorem duplicate_destination_witness :
    (submit sampleState dupReq).2
      = Except.error SubmitError.DuplicateDestination
    ∧ (submit sampleState dupReq).1 = sampleState :=
  duplicate_destination_rejected sampleState dupReq sampleTask
    (by simp [sampleState]) (by rfl) (by rfl) (by rfl)

/-- C3: when the caller supplied an `expected_hash` and the hash computed
over the fully transferred partial file differs from it, finalization
marks the task `error` with a checksum-mismatch detail, discards the
partial file, and publishes nothing at the final destination. -/
theorem checksum_mismatch_never_published (s : SysState) (i : Nat)
    (t : TaskRecord) (h : Nat)
    (h1 : findTask s i = some t) (h2 : t.status = TaskStatus.active)
    (h3 : t.bytesTransferred = t.bytesTotal)
    (h4 : t.expectedHash = some h)
    (h5 : contentHash ((lookupFile s.partFiles t.destination).getD []) ≠ h)
    (h6 : lookupFile s.published t.destination = none) :
    ∃ t', findTask (applyOp s (.finalize i)) i = some t'
      ∧ t'.status = TaskStatus.error
      ∧ t'.errorDetail = some "checksum mismatch"
      ∧ lookupFile (applyOp s (.finalize i)).partFiles t.destination = none
      ∧ lookupFile (applyOp s (.finalize i)).published t.destination
          = none := by
  have hne : (h == contentHash
      ((lookupFile s.partFiles t.destination).getD [])) = false := by
    simp only [beq_eq_false_iff_ne]
    exact fun he => h5 he.symm
  have happ : applyOp s (.finalize i) =
      { s with
          tasks := updateFirst i (fun u =>
            { u with
                status := TaskStatus.error
                errorDetail := some "checksum mismatch" }) s.tasks
          partFiles := removeFile s.partFiles t.destination
          history := s.history ++
            [{ filename := fileNameOf t.destination
               destination := t.destination
               contentHash := contentHash
                 ((lookupFile s.partFiles t.destination).getD [])
               finalStatus := TaskStatus.error }] } := by
    simp only [applyOp, h1]
    rw [if_pos ⟨h2, h3⟩]
    simp only [h4, hne, Bool.false_eq_true, if_false]
  refine ⟨{ t with
      status := TaskStatus.error
      errorDetail := some "checksum mismatch" }, ?_, rfl, rfl, ?_, ?_⟩
  · rw [happ]
    simp only [findTask] at h1 ⊢
    rw [find_updateFirst_self _ _ _ (by intro u; rfl), h1, Option.map_some']
  · rw [happ]
    exact lookupFile_removeFile_self _ _
  · rw [happ]
    exact h6

/-- Witness for `checksum_mismatch_never_published` at `fullState`: the
partial file hashes to a value different from the expected hash 99. -/
theorem checksum_mismatch_witness :
    ∃ t', findTask (applyOp fullState (.finalize 0)) 0 = some t'
      ∧ t'.status = TaskStatus.error
      ∧ t'.errorDetail = some "checksum mismatch"
      ∧ lookupFile (applyOp fullState (.finalize 0)).partFiles
          sampleTask.destination = none
      ∧ lookupFile (applyOp fullState (.finalize 0)).published
          sampleTask.destination = none :=
  checksum_mismatch_never_published fullState 0
    { sampleTask with bytesTransferred := 10 } 99
    (by rfl) (by rfl) (by rfl) (by rfl) (by decide) (by rfl)

/-- C6: cancellation is idempotent — cancelling a task already `cancelled`
or `completed` is a no-op that returns the current status (and no error),
and cancelling twice leaves the same final state as cancelling once. -/
theorem cancel_idempotent (s : SysState) (i : Nat) :
    (∀ t, findTask s i = some t → t.status.isTerminal = true →
        cancelCall s i = (s, some t.status))
    ∧ (cancelCall (cancelCall s i).1 i).1 = (cancelCall s i).1 := by
  constructor
  · intro t ht hterm
    simp [cancelCall, ht, hterm]
  · cases hf : findTask s i with
    | none => simp [cancelCall, hf]
    | some t =>
      by_cases hterm : t.status.isTerminal = true
      · simp [cancelCall, hf, hterm]
      · have hfind2 : findTask (cancelCall s i).1 i
            = some { t with status := TaskStatus.cancelled } := by
          simp only [cancelCall, hf]
          rw [if_neg hterm]
          simp only [findTask] at hf ⊢
          rw [find_updateFirst_self _ _ _ (by intro u; rfl), hf,
            Option.map_some']
        generalize hX : (cancelCall s i).1 = X at hfind2 ⊢
        simp [cancelCall, hfind2, TaskStatus.isTerminal]

/-- Witness for `cancel_idempotent`: cancelling the already-completed task
of `doneState` is a no-op returning `completed`. -/
theorem cancel_idempotent_witness :
    cancelCall doneState 0 = (doneState, some TaskStatus.completed) :=
  (cancel_idempotent doneState 0).1
    { sampleTask with status := TaskStatus.completed } (by rfl) (by rfl)

/-- C4 (counterexample): the bound `activeCount ≤ limit` is not an
invariant of every reachable state: admit two transfers under limit 2,
then lower the limit to 1 at runtime — the spec applies limit changes only
to future admissions, so both transfers remain `active` and the reachable
state `lateLimitState` has 2 active tasks under a positive limit of 1. -/
theorem concurrency_limit_counterexample :
    Reachable (initState 2) lateLimitState
    ∧ 0 < lateLimitState.limit
    ∧ activeCount lateLimitState = 2
    ∧ lateLimitState.limit = 1
    ∧ decide (activeCount lateLimitState ≤ lateLimitState.limit) = false := by
  refine ⟨?_, by decide, by decide, by decide, by decide⟩
  unfold lateLimitState
  exact .step _ (.step _ (.step _ (.step _ (.step _ .refl))))

/-- C4 (amended): every operation preserves `activeCount ≤ limit` except a
runtime limit decrease below the current number of in-flight transfers; in
particular admission never pushes the active count above the configured
limit, and along any run in which the limit is never lowered below the
active count the bound holds in every state. -/
theorem concurrency_limit_preserved (s : SysState) (op : Op)
    (hinv : activeCount s ≤ s.limit)
    (hset : ∀ n, op = Op.setLimit n → activeCount s ≤ n) :
    activeCount (applyOp s op) ≤ (applyOp s op).limit := by
  cases op with
  | submitOp r =>
    simp only [applyOp, submit]
    by_cases hv : validDest r.destination = false
    · rw [if_pos hv]; exact hinv
    · rw [if_neg hv]
      by_cases hd : hasNonTerminalForDest s r.destination = true
      · simp only [hd, if_true]; exact hinv
      · simp only [hd, Bool.false_eq_true, if_false]
        show countActive (s.tasks ++ [newTask s r]) ≤ s.limit
        rw [countActive_append]
        have h0 : countActive [newTask s r] = 0 := by
          simp [countActive, List.countP_cons, newTask]
        have hac : activeCount s = countActive s.tasks := rfl
        omega
  | admitTask j dOk rSup =>
    cases hf : findTask s j with
    | none => simp only [applyOp, hf]; exact hinv
    | some t =>
      simp only [applyOp, hf]
      by_cases hc : t.status = TaskStatus.queued ∧ dOk = true
          ∧ activeCount s < s.limit
      · rw [if_pos hc]
        have hlt : countActive s.tasks < s.limit := hc.2.2
        show countActive (updateFirst j _ s.tasks) ≤ s.limit
        exact le_trans (countActive_updateFirst_succ _ _ _) hlt
      · rw [if_neg hc]; exact hinv
  | chunk j bs =>
    cases hf : findTask s j with
    | none => simp only [applyOp, hf]; exact hinv
    | some t =>
      simp only [applyOp, hf]
      by_cases hc : t.status = TaskStatus.active
      · rw [if_pos hc]
        show countActive (updateFirst j _ s.tasks) ≤ s.limit
        rw [countActive_updateFirst_eq _ _ _ (by intro u; rfl)]
        exact hinv
      · rw [if_neg hc]; exact hinv
  | checkpoint j =>
    cases hf : findTask s j with
    | none => simp only [applyOp, hf]; exact hinv
    | some t =>
      simp only [applyOp, hf]
      by_cases hc : t.status = TaskStatus.active
      · rw [if_pos hc]
        show countActive (updateFirst j _ s.tasks) ≤ s.limit
        rw [countActive_updateFirst_eq _ _ _ (by intro u; rfl)]
        exact hinv
      · rw [if_neg hc]; exact hinv
  | pauseOp j =>
    cases hf : findTask s j with
    | none => simp only [applyOp, hf]; exact hinv
    | some t =>
      simp only [applyOp, hf]
      by_cases hc : t.status = TaskStatus.active
      · rw [if_pos hc]
        show countActive (updateFirst j _ s.tasks) ≤ s.limit
        exact le_trans (countActive_updateFirst_le _ _ _
          (fun u hu => absurd hu (by simp))) hinv
      · rw [if_neg hc]; exact hinv
  | resumeOp j =>
    cases hf : findTask s j with
    | none => simp only [applyOp, hf]; exact hinv
    | some t =>
      simp only [applyOp, hf]
      by_cases hc : t.status = TaskStatus.paused
      · rw [if_pos hc]
        show countActive (updateFirst j _ s.tasks) ≤ s.limit
        exact le_trans (countActive_updateFirst_le _ _ _
          (fun u hu => absurd hu (by simp))) hinv
      · rw [if_neg hc]; exact hinv
  | finalize j =>
    cases hf : findTask s j with
    | none => simp only [applyOp, hf]; exact hinv
    | some t =>
      simp only [applyOp, hf]
      by_cases hc : t.status = TaskStatus.active
          ∧ t.bytesTransferred = t.bytesTotal
      · rw [if_pos hc]
        split
        · show countActive (updateFirst j _ s.tasks) ≤ s.limit
          exact le_trans (countActive_updateFirst_le _ _ _
            (fun u hu => absurd hu (by simp))) hinv
        · show countActive (updateFirst j _ s.tasks) ≤ s.limit
          exact le_trans (countActive_updateFirst_le _ _ _
            (fun u hu => absurd hu (by simp))) hinv
      · rw [if_neg hc]; exact hinv
  | transportFail j =>
    cases hf : findTask s j with
    | none => simp only [applyOp, hf]; exact hinv
    | some t =>
      simp only [applyOp, hf]
      by_cases hc : t.status = TaskStatus.active
      · rw [if_pos hc]
        split
        · show countActive (updateFirst j _ s.tasks) ≤ s.limit
          exact le_trans (countActive_updateFirst_le _ _ _
            (fun u hu => absurd hu (by simp))) hinv
        · show countActive (updateFirst j _ s.tasks) ≤ s.limit
          exact le_trans (countActive_updateFirst_le _ _ _
            (fun u hu => absurd hu (by simp))) hinv
      · rw [if_neg hc]; exact hinv
  | retryOp j =>
    cases hf : findTask s j with
    | none => simp only [applyOp, hf]; exact hinv
    | some t =>
      simp only [applyOp, hf]
      by_cases hc : t.status = TaskStatus.error
      · rw [if_pos hc]
        show countActive (updateFirst j _ s.tasks) ≤ s.limit
        exact le_trans (countActive_updateFirst_le _ _ _
          (fun u hu => absurd hu (by simp))) hinv
      · rw [if_neg hc]; exact hinv
  | cancelOp j =>
    cases hf : findTask s j with
    | none => simp only [applyOp, cancelCall, hf]; exact hinv
    | some t =>
      simp only [applyOp, cancelCall, hf]
      by_cases hc : t.status.isTerminal = true
      · rw [if_pos hc]; exact hinv
      · rw [if_neg hc]
        show countActive (updateFirst j _ s.tasks) ≤ s.limit
        exact le_trans (countActive_updateFirst_le _ _ _
          (fun u hu => absurd hu (by simp))) hinv
  | setLimit n =>
    simp only [applyOp]
    by_cases hn : 0 < n
    · rw [if_pos hn]
      exact hset n rfl
    · rw [if_neg hn]; exact hinv
  | restart =>
    simp only [applyOp]
    show countActive (s.tasks.map _) ≤ s.limit
    rw [countActive_restart]
    exact Nat.zero_le _
  | clearHistoryOp => exact hinv
  | deleteHistoryOp fn => exact hinv

/-- Witness for `concurrency_limit_preserved`: a checkpoint step on
`sampleState` keeps the active count within the limit. -/
theorem concurrency_limit_preserved_witness :
    activeCount (applyOp sampleState (.checkpoint 0))
      ≤ (applyOp sampleState (.checkpoint 0)).limit :=
  concurrency_limit_preserved sampleState (.checkpoint 0) (by decide)
    (fun n hn => by cases hn)

theorem bytes_le_after_update (s : SysState) (i j : Nat)
    (t t' : TaskRecord) (f : TaskRecord → TaskRecord)
    (h1 : findTask s i = some t)
    (h3 : (updateFirst j f s.tasks).find? (fun x => x.id == i) = some t')
    (hfid : ∀ u, (f u).id = u.id)
    (hfmono : ∀ u, u.bytesTransferred ≤ (f u).bytesTransferred) :
    t.bytesTransferred ≤ t'.bytesTransferred := by
  by_cases hij : i = j
  · subst hij
    rw [find_updateFirst_self _ _ _ hfid,
      show s.tasks.find? (fun x => x.id == i) = some t from h1,
      Option.map_some'] at h3
    injection h3 with h3
    rw [← h3]
    exact hfmono t
  · rw [find_updateFirst_other _ _ _ _ hfid hij,
      show s.tasks.find? (fun x => x.id == i) = some t from h1] at h3
    injection h3 with h3
    rw [← h3]

/-- C7: across every operation of the system, the `bytes_transferred` of a
task that is `active` both before and after the step never decreases. -/
theorem bytes_monotone_while_active (s : SysState) (op : Op) (i : Nat)
    (t t' : TaskRecord) (h1 : findTask s i = some t)
    (h2 : t.status = TaskStatus.active)
    (h3 : findTask (applyOp s op) i = some t')
    (h4 : t'.status = TaskStatus.active) :
    t.bytesTransferred ≤ t'.bytesTransferred := by
  have hsame : ∀ u : TaskRecord, findTask s i = some u →
      t.bytesTransferred ≤ u.bytesTransferred := by
    intro u hu
    rw [h1] at hu
    injection hu with hu
    subst hu
    exact Nat.le_refl _
  cases op with
  | submitOp r =>
    simp only [applyOp, submit] at h3
    by_cases hv : validDest r.destination = false
    · rw [if_pos hv] at h3; exact hsame t' h3
    · rw [if_neg hv] at h3
      by_cases hd : hasNonTerminalForDest s r.destination = true
      · simp only [hd, if_true] at h3; exact hsame t' h3
      · simp only [hd, Bool.false_eq_true, if_false] at h3
        have h3' : (s.tasks ++ [newTask s r]).find? (fun x => x.id == i)
            = some t' := h3
        rw [find_append_some s.tasks [newTask s r] _ t h1] at h3'
        injection h3' with h3'
        rw [← h3']
  | admitTask j dOk rSup =>
    cases hf : findTask s j with
    | none => simp only [applyOp, hf] at h3; exact hsame t' h3
    | some v =>
      by_cases hc : v.status = TaskStatus.queued ∧ dOk = true
          ∧ activeCount s < s.limit
      · by_cases hij : i = j
        · subst hij
          rw [h1] at hf
          injection hf with hf
          rw [← hf] at hc
          exact absurd hc.1 (by simp [h2])
        · simp only [applyOp, hf] at h3
          rw [if_pos hc] at h3
          have h3' : (updateFirst j (fun u =>
              { u with
                  status := TaskStatus.active
                  bytesTransferred := resumeStart v
                    (lookupFile s.partFiles v.destination) rSup
                  attemptCount := u.attemptCount + 1 }) s.tasks).find?
                (fun x => x.id == i) = some t' := h3
          rw [find_updateFirst_other _ _ _ _ (by intro u; rfl) hij,
            show s.tasks.find? (fun x => x.id == i) = some t from h1] at h3'
          injection h3' with h3'
          rw [← h3']
      · simp only [applyOp, hf] at h3
        rw [if_neg hc] at h3
        exact hsame t' h3
  | chunk j bs =>
    cases hf : findTask s j with
    | none => simp only [applyOp, hf] at h3; exact hsame t' h3
    | some v =>
      by_cases hc : v.status = TaskStatus.active
      · simp only [applyOp, hf] at h3
        rw [if_pos hc] at h3
        exact bytes_le_after_update s i j t t' _ h1 h3 (by intro u; rfl)
          (fun u => Nat.le_add_right _ _)
      · simp only [applyOp, hf] at h3
        rw [if_neg hc] at h3
        exact hsame t' h3
  | checkpoint j =>
    cases hf : findTask s j with
    | none => simp only [applyOp, hf] at h3; exact hsame t' h3
    | some v =>
      by_cases hc : v.status = TaskStatus.active
      · simp only [applyOp, hf] at h3
        rw [if_pos hc] at h3
        exact bytes_le_after_update s i j t t' _ h1 h3 (by intro u; rfl)
          (fun u => Nat.le_refl _)
      · simp only [applyOp, hf] at h3
        rw [if_neg hc] at h3
        exact hsame t' h3
  | pauseOp j =>
    cases hf : findTask s j with
    | none => simp only [applyOp, hf] at h3; exact hsame t' h3
    | some v =>
      by_cases hc : v.status = TaskStatus.active
      · simp only [applyOp, hf] at h3
        rw [if_pos hc] at h3
        exact bytes_le_after_update s i j t t' _ h1 h3 (by intro u; rfl)
          (fun u => Nat.le_refl _)
      · simp only [applyOp, hf] at h3
        rw [if_neg hc] at h3
        exact hsame t' h3
  | resumeOp j =>
    cases hf : findTask s j with
    | none => simp only [applyOp, hf] at h3; exact hsame t' h3
    | some v =>
      by_cases hc : v.status = TaskStatus.paused
      · simp only [applyOp, hf] at h3
        rw [if_pos hc] at h3
        exact bytes_le_after_update s i j t t' _ h1 h3 (by intro u; rfl)
          (fun u => Nat.le_refl _)
      · simp only [applyOp, hf] at h3
        rw [if_neg hc] at h3
        exact hsame t' h3
  | finalize j =>
    cases hf : findTask s j with
    | none => simp only [applyOp, hf] at h3; exact hsame t' h3
    | some v =>
      by_cases hc : v.status = TaskStatus.active
          ∧ v.bytesTransferred = v.bytesTotal
      · simp only [applyOp, hf] at h3
        rw [if_pos hc] at h3
        split at h3
        · exact bytes_le_after_update s i j t t' _ h1 h3 (by intro u; rfl)
            (fun u => Nat.le_refl _)
        · exact bytes_le_after_update s i j t t' _ h1 h3 (by intro u; rfl)
            (fun u => Nat.le_refl _)
      · simp only [applyOp, hf] at h3
        rw [if_neg hc] at h3
        exact hsame t' h3
  | transportFail j =>
    cases hf : findTask s j with
    | none => simp only [applyOp, hf] at h3; exact hsame t' h3
    | some v =>
      by_cases hc : v.status = TaskStatus.active
      · simp only [applyOp, hf] at h3
        rw [if_pos hc] at h3
        split at h3
        · exact bytes_le_after_update s i j t t' _ h1 h3 (by intro u; rfl)
            (fun u => Nat.le_refl _)
        · exact bytes_le_after_update s i j t t' _ h1 h3 (by intro u; rfl)
            (fun u => Nat.le_refl _)
      · simp only [applyOp, hf] at h3
        rw [if_neg hc] at h3
        exact hsame t' h3
  | retryOp j =>
    cases hf : findTask s j with
    | none => simp only [applyOp, hf] at h3; exact hsame t' h3
    | some v =>
      by_cases hc : v.status = TaskStatus.error
      · simp only [applyOp, hf] at h3
        rw [if_pos hc] at h3
        exact bytes_le_after_update s i j t t' _ h1 h3 (by intro u; rfl)
          (fun u => Nat.le_refl _)
      · simp only [applyOp, hf] at h3
        rw [if_neg hc] at h3
        exact hsame t' h3
  | cancelOp j =>
    cases hf : findTask s j with
    | none =>
      simp only [applyOp, cancelCall, hf] at h3
      exact hsame t' h3
    | some v =>
      by_cases hc : v.status.isTerminal = true
      · simp only [applyOp, cancelCall, hf] at h3
        rw [if_pos hc] at h3
        exact hsame t' h3
      · simp only [applyOp, cancelCall, hf] at h3
        rw [if_neg hc] at h3
        exact bytes_le_after_update s i j t t' _ h1 h3 (by intro u; rfl)
          (fun u => Nat.le_refl _)
  | setLimit n =>
    simp only [applyOp] at h3
    by_cases hn : 0 < n
    · rw [if_pos hn] at h3; exact hsame t' h3
    · rw [if_neg hn] at h3; exact hsame t' h3
  | restart =>
    simp only [applyOp] at h3
    have hg : ∀ u : TaskRecord,
        ((if u.status = TaskStatus.active then
          { u with status := TaskStatus.queued } else u) : TaskRecord).id
          = u.id := by
      intro u
      by_cases h : u.status = TaskStatus.active <;> simp [h]
    have h3' : (s.tasks.map (fun u =>
        if u.status = TaskStatus.active then
          { u with status := TaskStatus.queued } else u)).find?
          (fun x => x.id == i) = some t' := h3
    rw [find_map_id _ _ _ hg,
      show s.tasks.find? (fun x => x.id == i) = some t from h1,
      Option.map_some'] at h3'
    injection h3' with h3'
    rw [← h3', if_pos h2]
  | clearHistoryOp =>
    simp only [applyOp] at h3
    exact hsame t' h3
  | deleteHistoryOp fn =>
    simp only [applyOp] at h3
    exact hsame t' h3

/-- Witness for `bytes_monotone_while_active`: a 2-byte chunk arriving on
`sampleState`'s active task does not decrease `bytes_transferred`. -/
theorem bytes_monotone_witness :
    sampleTask.bytesTransferred ≤ 8 :=
  bytes_monotone_while_active sampleState (.chunk 0 [7, 8]) 0 sampleTask
    { sampleTask with bytesTransferred := 8 }
    (by rfl) (by rfl) (by decide) (by rfl)

theorem find_updateFirst_isSome (l : List TaskRecord) (i j : Nat)
    (f : TaskRecord → TaskRecord) (hfid : ∀ u, (f u).id = u.id)
    (t : TaskRecord) (h : l.find? (fun x => x.id == i) = some t) :
    ∃ t', (updateFirst j f l).find? (fun x => x.id == i) = some t' := by
  by_cases hij : i = j
  · subst hij
    rw [find_updateFirst_self _ _ _ hfid, h, Option.map_some']
    exact ⟨f t, rfl⟩
  · rw [find_updateFirst_other _ _ _ _ hfid hij, h]
    exact ⟨t, rfl⟩

/-- C8: no task silently disappears — every task record survives every
operation, a surviving record is terminal only as `completed` or
`cancelled`, and a history entry survives every operation other than an
explicit clear-history or a delete of that very entry. -/
theorem no_silent_disappearance (s : SysState) (op : Op) :
    (∀ i t, findTask s i = some t →
      ∃ t', findTask (applyOp s op) i = some t'
        ∧ (t'.status.isTerminal = true →
            t'.status = TaskStatus.completed
            ∨ t'.status = TaskStatus.cancelled))
    ∧ ∀ e, e ∈ s.history → op ≠ Op.clearHistoryOp →
        (∀ fn, op = Op.deleteHistoryOp fn → e.filename ≠ fn) →
        e ∈ (applyOp s op).history := by
  constructor
  · intro i t ht
    have hex : ∃ t', findTask (applyOp s op) i = some t' := by
      cases op with
      | submitOp r =>
        simp only [applyOp, submit]
        by_cases hv : validDest r.destination = false
        · rw [if_pos hv]; exact ⟨t, ht⟩
        · rw [if_neg hv]
          by_cases hd : hasNonTerminalForDest s r.destination = true
          · simp only [hd, if_true]; exact ⟨t, ht⟩
          · simp only [hd, Bool.false_eq_true, if_false]
            exact ⟨t, find_append_some s.tasks [newTask s r] _ t ht⟩
      | admitTask j dOk rSup =>
        cases hf : findTask s j with
        | none => simp only [applyOp, hf]; exact ⟨t, ht⟩
        | some v =>
          by_cases hc : v.status = TaskStatus.queued ∧ dOk = true
              ∧ activeCount s < s.limit
          · simp only [applyOp, hf]
            rw [if_pos hc]
            exact find_updateFirst_isSome s.tasks i j _ (by intro u; rfl)
              t ht
          · simp only [applyOp, hf]; rw [if_neg hc]; exact ⟨t, ht⟩
      | chunk j bs =>
        cases hf : findTask s j with
        | none => simp only [applyOp, hf]; exact ⟨t, ht⟩
        | some v =>
          by_cases hc : v.status = TaskStatus.active
          · simp only [applyOp, hf]
            rw [if_pos hc]
            exact find_updateFirst_isSome s.tasks i j _ (by intro u; rfl)
              t ht
          · simp only [applyOp, hf]; rw [if_neg hc]; exact ⟨t, ht⟩
      | checkpoint j =>
        cases hf : findTask s j with
        | none => simp only [applyOp, hf]; exact ⟨t, ht⟩
        | some v =>
          by_cases hc : v.status = TaskStatus.active
          · simp only [applyOp, hf]
            rw [if_pos hc]
            exact find_updateFirst_isSome s.tasks i j _ (by intro u; rfl)
              t ht
          · simp only [applyOp, hf]; rw [if_neg hc]; exact ⟨t, ht⟩
      | pauseOp j =>
        cases hf : findTask s j with
        | none => simp only [applyOp, hf]; exact ⟨t, ht⟩
        | some v =>
          by_cases hc : v.status = TaskStatus.active
          · simp only [applyOp, hf]
            rw [if_pos hc]
            exact find_updateFirst_isSome s.tasks i j _ (by intro u; rfl)
              t ht
          · simp only [applyOp, hf]; rw [if_neg hc]; exact ⟨t, ht⟩
      | resumeOp j =>
        cases hf : findTask s j with
        | none => simp only [applyOp, hf]; exact ⟨t, ht⟩
        | some v =>
          by_cases hc : v.status = TaskStatus.paused
          · simp only [applyOp, hf]
            rw [if_pos hc]
            exact find_updateFirst_isSome s.tasks i j _ (by intro u; rfl)
              t ht
          · simp only [applyOp, hf]; rw [if_neg hc]; exact ⟨t, ht⟩
      | finalize j =>
        cases hf : findTask s j with
        | none => simp only [applyOp, hf]; exact ⟨t, ht⟩
        | some v =>
          by_cases hc : v.status = TaskStatus.active
              ∧ v.bytesTransferred = v.bytesTotal
          · simp only [applyOp, hf]
            rw [if_pos hc]
            split
            · exact find_updateFirst_isSome s.tasks i j _ (by intro u; rfl)
                t ht
            · exact find_updateFirst_isSome s.tasks i j _ (by intro u; rfl)
                t ht
          · simp only [applyOp, hf]; rw [if_neg hc]; exact ⟨t, ht⟩
      | transportFail j =>
        cases hf : findTask s j with
        | none => simp only [applyOp, hf]; exact ⟨t, ht⟩
        | some v =>
          by_cases hc : v.status = TaskStatus.active
          · simp only [applyOp, hf]
            rw [if_pos hc]
            split
            · exact find_updateFirst_isSome s.tasks i j _ (by intro u; rfl)
                t ht
            · exact find_updateFirst_isSome s.tasks i j _ (by intro u; rfl)
                t ht
          · simp only [applyOp, hf]; rw [if_neg hc]; exact ⟨t, ht⟩
      | retryOp j =>
        cases hf : findTask s j with
        | none => simp only [applyOp, hf]; exact ⟨t, ht⟩
        | some v =>
          by_cases hc : v.status = TaskStatus.error
          · simp only [applyOp, hf]
            rw [if_pos hc]
            exact find_updateFirst_isSome s.tasks i j _ (by intro u; rfl)
              t ht
          · simp only [applyOp, hf]; rw [if_neg hc]; exact ⟨t, ht⟩
      | cancelOp j =>
        cases hf : findTask s j with
        | none => simp only [applyOp, cancelCall, hf]; exact ⟨t, ht⟩
        | some v =>
          by_cases hc : v.status.isTerminal = true
          · simp only [applyOp, cancelCall, hf]
            rw [if_pos hc]
            exact ⟨t, ht⟩
          · simp only [applyOp, cancelCall, hf]
            rw [if_neg hc]
            exact find_updateFirst_isSome s.tasks i j _ (by intro u; rfl)
              t ht
      | setLimit n =>
        simp only [applyOp]
        by_cases hn : 0 < n
        · rw [if_pos hn]; exact ⟨t, ht⟩
        · rw [if_neg hn]; exact ⟨t, ht⟩
      | restart =>
        simp only [applyOp]
        have hg : ∀ u : TaskRecord,
            ((if u.status = TaskStatus.active then
              { u with status := TaskStatus.queued } else u) : TaskRecord).id
              = u.id := by
          intro u
          by_cases h : u.status = TaskStatus.active <;> simp [h]
        have hmap : (s.tasks.map (fun u =>
            if u.status = TaskStatus.active then
              { u with status := TaskStatus.queued } else u)).find?
              (fun x => x.id == i)
            = some (if t.status = TaskStatus.active then
              { t with status := TaskStatus.queued } else t) := by
          rw [find_map_id _ _ _ hg,
            show s.tasks.find? (fun x => x.id == i) = some t from ht,
            Option.map_some']
        exact ⟨_, hmap⟩
      | clearHistoryOp => exact ⟨t, ht⟩
      | deleteHistoryOp fn => exact ⟨t, ht⟩
    obtain ⟨t', ht'⟩ := hex
    exact ⟨t', ht', fun hterm => terminal_cases _ hterm⟩
  · intro e he hclear hdel
    cases op with
    | submitOp r =>
      simp only [applyOp, submit]
      by_cases hv : validDest r.destination = false
      · rw [if_pos hv]; exact he
      · rw [if_neg hv]
        by_cases hd : hasNonTerminalForDest s r.destination = true
        · simp only [hd, if_true]; exact he
        · simp only [hd, Bool.false_eq_true, if_false]; exact he
    | admitTask j dOk rSup =>
      cases hf : findTask s j with
      | none => simp only [applyOp, hf]; exact he
      | some v =>
        by_cases hc : v.status = TaskStatus.queued ∧ dOk = true
            ∧ activeCount s < s.limit
        · simp only [applyOp, hf]; rw [if_pos hc]; exact he
        · simp only [applyOp, hf]; rw [if_neg hc]; exact he
    | chunk j bs =>
      cases hf : findTask s j with
      | none => simp only [applyOp, hf]; exact he
      | some v =>
        by_cases hc : v.status = TaskStatus.active
        · simp only [applyOp, hf]; rw [if_pos hc]; exact he
        · simp only [applyOp, hf]; rw [if_neg hc]; exact he
    | checkpoint j =>
      cases hf : findTask s j with
      | none => simp only [applyOp, hf]; exact he
      | some v =>
        by_cases hc : v.status = TaskStatus.active
        · simp only [applyOp, hf]; rw [if_pos hc]; exact he
        · simp only [applyOp, hf]; rw [if_neg hc]; exact he
    | pauseOp j =>
      cases hf : findTask s j with
      | none => simp only [applyOp, hf]; exact he
      | some v =>
        by_cases hc : v.status = TaskStatus.active
        · simp only [applyOp, hf]; rw [if_pos hc]; exact he
        · simp only [applyOp, hf]; rw [if_neg hc]; exact he
    | resumeOp j =>
      cases hf : findTask s j with
      | none => simp only [applyOp, hf]; exact he
      | some v =>
        by_cases hc : v.status = TaskStatus.paused
        · simp only [applyOp, hf]; rw [if_pos hc]; exact he
        · simp only [applyOp, hf]; rw [if_neg hc]; exact he
    | finalize j =>
      cases hf : findTask s j with
      | none => simp only [applyOp, hf]; exact he
      | some v =>
        by_cases hc : v.status = TaskStatus.active
            ∧ v.bytesTransferred = v.bytesTotal
        · simp only [applyOp, hf]
          rw [if_pos hc]
          split
          · exact List.mem_append_left _ he
          · exact List.mem_append_left _ he
        · simp only [applyOp, hf]; rw [if_neg hc]; exact he
    | transportFail j =>
      cases hf : findTask s j with
      | none => simp only [applyOp, hf]; exact he
      | some v =>
        by_cases hc : v.status = TaskStatus.active
        · simp only [applyOp, hf]
          rw [if_pos hc]
          split
          · exact he
          · exact List.mem_append_left _ he
        · simp only [applyOp, hf]; rw [if_neg hc]; exact he
    | retryOp j =>
      cases hf : findTask s j with
      | none => simp only [applyOp, hf]; exact he
      | some v =>
        by_cases hc : v.status = TaskStatus.error
        · simp only [applyOp, hf]; rw [if_pos hc]; exact he
        · simp only [applyOp, hf]; rw [if_neg hc]; exact he
    | cancelOp j =>
      cases hf : findTask s j with
      | none => simp only [applyOp, cancelCall, hf]; exact he
      | some v =>
        by_cases hc : v.status.isTerminal = true
        · simp only [applyOp, cancelCall, hf]; rw [if_pos hc]; exact he
        · simp only [applyOp, cancelCall, hf]; rw [if_neg hc]; exact he
    | setLimit n =>
      simp only [applyOp]
      by_cases hn : 0 < n
      · rw [if_pos hn]; exact he
      · rw [if_neg hn]; exact he
    | restart => exact he
    | clearHistoryOp => exact absurd rfl hclear
    | deleteHistoryOp fn =>
      have hne : e.filename ≠ fn := hdel fn rfl
      simp only [applyOp]
      simp [List.mem_filter, he, hne]

/-- Witness for `no_silent_disappearance`: `sampleState`'s history entry
survives a checkpoint step. -/
theorem no_silent_disappearance_witness :
    ({ filename := "old.bin"
       destination := ["models", "old.bin"]
       contentHash := 5
       finalStatus := TaskStatus.completed } : HistoryEntry)
      ∈ (applyOp sampleState (.checkpoint 0)).history :=
  (no_silent_disappearance sampleState (.checkpoint 0)).2 _
    (by simp [sampleState]) (by simp) (fun fn hfn => by cases hfn)

end WMD
